import Mathlib

/-!
# acepanel/templates: the template importer (`main.go`)

A shallow embedding of `main.go` and the properties of its directory scan,
record normalisation and batched upload.

* Go's `map[string]any` is an association list; `mapGet` is `m[k]`, `mapSet`
  is `m[k] = v`.  The order of the list stands for the order in which `range`
  visits the entries, which Go leaves unspecified: every theorem holds for
  every order.
* The operating system, the YAML decoder, the JSON encoder and the HTTP server
  are inputs of the run (`World`).
* Standard output is the list of the strings printed, one per call.
-/

namespace Templates

/-! ## Data model -/

/-- File contents: a sequence of bytes (each taken modulo 256 where it matters). -/
abbrev Bytes := List Nat

/-- The dynamic values an `any` decoded from YAML holds.  `map` is Go's
`map[string]any`, the only type the assertions `.(map[string]any)` of lines 70
and 73 accept; `seq` is a slice (`[]any`, and the `[]map[string]any` of line 71,
whose elements are then all `map`). -/
inductive Value where
  | null
  | bool (b : Bool)
  | int (i : Int)
  | str (s : String)
  | seq (xs : List Value)
  | map (m : List (String × Value))

/-- Go's `map[string]any` (non-nil). -/
abbrev GoMap := List (String × Value)

/-- Lookup `m[k]`: `none` when the key is absent. -/
def mapGet : GoMap → String → Option Value
  | [], _ => none
  | (k', v') :: rest, k => if k' = k then some v' else mapGet rest k

/-- Assignment `m[k] = v`: replaces the value of an existing key, adds the key otherwise. -/
def mapSet : GoMap → String → Value → GoMap
  | [], k, v => [(k, v)]
  | (k', v') :: rest, k, v => if k' = k then (k, v) :: rest else (k', v') :: mapSet rest k v

/-- The keys of a map. -/
def mapKeys (m : GoMap) : List String := m.map Prod.fst

/-! ## Lines 67-82: environments, from map to array -/

/-- Lines 74-77: `envItem := map[string]any{"name": name}`, then every `k, v` of
`envValue` is assigned into it. -/
def envItem (name : String) (envValue : GoMap) : GoMap :=
  envValue.foldl (fun item kv => mapSet item kv.1 kv.2) [("name", Value.str name)]

/-- Lines 71-80: the loop over `envMap`; an entry whose value is a
`map[string]any` appends its item, any other entry appends nothing. -/
def envArray (envMap : GoMap) : List GoMap :=
  envMap.foldl
    (fun arr nv =>
      match nv.2 with
      | Value.map envValue => arr ++ [envItem nv.1 envValue]
      | _ => arr)
    []

/-- Lines 70-82: when `template["environments"]` is a `map[string]any` it is
replaced by the array; otherwise the template is left as it is. -/
def convertEnvironments (template : GoMap) : GoMap :=
  match mapGet template "environments" with
  | some (Value.map envMap) =>
      mapSet template "environments" (Value.seq ((envArray envMap).map Value.map))
  | _ => template

/-! ## `base64.StdEncoding.EncodeToString` -/

/-- The standard base64 alphabet (RFC 4648, table 1). -/
def b64Alphabet : List Char :=
  "ABCDEFGHIJKLMNOPQRSTUVWXYZabcdefghijklmnopqrstuvwxyz0123456789+/".toList

/-- The character of a 6-bit value. -/
def b64Char (n : Nat) : Char := b64Alphabet.getD (n % 64) 'A'

/-- Standard base64 with `=` padding, three bytes to four characters. -/
def b64Encode : Bytes → List Char
  | [] => []
  | [a] =>
      let n := (a % 256) * 65536
      [b64Char (n / 262144), b64Char (n / 4096), '=', '=']
  | [a, b] =>
      let n := (a % 256) * 65536 + (b % 256) * 256
      [b64Char (n / 262144), b64Char (n / 4096), b64Char (n / 64), '=']
  | a :: b :: c :: rest =>
      let n := (a % 256) * 65536 + (b % 256) * 256 + c % 256
      b64Char (n / 262144) :: b64Char (n / 4096) :: b64Char (n / 64) :: b64Char n
        :: b64Encode rest

/-- Go's `base64.StdEncoding.EncodeToString`. -/
def encodeToString (data : Bytes) : String := String.mk (b64Encode data)

/-! ## The operating system -/

/-- The state of one file of a template directory, as `os.Stat` and
`os.ReadFile` see it. -/
inductive File (α : Type) where
  /-- The file does not exist: `os.Stat` fails with a not-exist error. -/
  | missing
  /-- The file cannot be reached: `os.Stat` and `os.ReadFile` fail with
  another error. -/
  | noAccess (err : String)
  /-- The file exists (`os.Stat` succeeds) and `os.ReadFile` fails. -/
  | unreadable (err : String)
  /-- The file exists and is read whole. -/
  | content (c : α)

/-- One entry of `os.ReadDir(cwd)`, with the files the program looks at. -/
structure DirEntry where
  name : String
  isDir : Bool
  /-- The file `data.yml`. -/
  data : File Bytes
  /-- The file `docker-compose.yml`; its content is the text `string(composeData)`. -/
  compose : File String
  /-- The file `logo.svg`. -/
  svg : File Bytes
  /-- The file `logo.png`. -/
  png : File Bytes

/-- Reads `_, err := os.Stat(path); err == nil`. -/
def statOk {α : Type} : File α → Bool
  | File.unreadable _ => true
  | File.content _ => true
  | _ => false

/-- Reads `_, err := os.Stat(path); os.IsNotExist(err)`. -/
def statNotExist {α : Type} : File α → Bool
  | File.missing => true
  | _ => false

/-- Go's `os.ReadFile(path)`: the content or the error's text. -/
def readFile {α : Type} (path : String) : File α → Except String α
  | File.missing => Except.error ("open " ++ path ++ ": no such file or directory")
  | File.noAccess err => Except.error err
  | File.unreadable err => Except.error err
  | File.content c => Except.ok c

/-- Go's `filepath.Join(cwd, name, file)`, for the absolute path `os.Getwd`
returns and the one-element names of `os.ReadDir`. -/
def filepathJoin (cwd name file : String) : String :=
  (if cwd = "/" then "" else cwd) ++ "/" ++ name ++ "/" ++ file

/-! ## Lines 41-118: one directory entry -/

/-- What one iteration of the scan does with its entry. -/
inductive Loaded where
  /-- A `continue`: no record. -/
  | skipped
  /-- Line 116: the record appended to `templates`. -/
  | emitted (template : GoMap)
  /-- Line 65 on a nil map: the run stops with a runtime error. -/
  | crashed

/-- Lines 93-105: the logo to read, `logo.svg` first: `logoPath`, `logoMime`
and the file at `logoPath`; `none` is the empty `logoPath`. -/
def chooseLogo (cwd : String) (entry : DirEntry) : Option (String × String × File Bytes) :=
  if statOk entry.svg then
    some (filepathJoin cwd entry.name "logo.svg", "image/svg+xml", entry.svg)
  else if statOk entry.png then
    some (filepathJoin cwd entry.name "logo.png", "image/png", entry.png)
  else none

/-- Lines 64-117, for the map `yaml.Unmarshal` stored in `template`: the lines
printed and the record, if one is appended. -/
def loadTemplate (cwd : String) (entry : DirEntry) (template : GoMap) :
    List String × Loaded :=
  let template := mapSet template "slug" (Value.str entry.name)
  let template := convertEnvironments template
  match readFile (filepathJoin cwd entry.name "docker-compose.yml") entry.compose with
  | Except.error err =>
      (["Error reading docker-compose.yml for " ++ entry.name ++ ": " ++ err ++ "\n"],
        Loaded.skipped)
  | Except.ok composeData =>
      let template := mapSet template "compose" (Value.str composeData)
      match chooseLogo cwd entry with
      | none => ([], Loaded.emitted template)
      | some (logoPath, logoMime, logo) =>
          match readFile logoPath logo with
          | Except.error err =>
              (["Error reading logo for " ++ entry.name ++ ": " ++ err ++ "\n"],
                Loaded.emitted template)
          | Except.ok logoData =>
              ([], Loaded.emitted (mapSet template "icon"
                (Value.str ("data:" ++ logoMime ++ ";base64," ++ encodeToString logoData))))

/-- Lines 42-117: the body of the scan loop.  `unmarshal` is `yaml.Unmarshal`
into the nil `template` of line 58: an error, or the map stored, `none` when the
decoder stores none (an empty or `null` document leaves `template` nil). -/
def processEntry (cwd : String) (unmarshal : Bytes → Except String (Option GoMap))
    (entry : DirEntry) : List String × Loaded :=
  if !entry.isDir then ([], Loaded.skipped)
  else if statNotExist entry.data then ([], Loaded.skipped)
  else
    let dataPath := filepathJoin cwd entry.name "data.yml"
    match readFile dataPath entry.data with
    | Except.error err => (["Error reading " ++ dataPath ++ ": " ++ err ++ "\n"], Loaded.skipped)
    | Except.ok data =>
        match unmarshal data with
        | Except.error err =>
            (["Error parsing " ++ dataPath ++ ": " ++ err ++ "\n"], Loaded.skipped)
        | Except.ok none => ([], Loaded.crashed)
        | Except.ok (some template) => loadTemplate cwd entry template

/-- The scan's result: the aggregate and the output so far, or the crash. -/
inductive ScanResult where
  | done (templates : List GoMap) (out : List String)
  | crashed (out : List String)

/-- Lines 41-118: the loop over the entries, from the `templates` and output so far. -/
def scan (cwd : String) (unmarshal : Bytes → Except String (Option GoMap)) :
    List DirEntry → List GoMap → List String → ScanResult
  | [], templates, out => ScanResult.done templates out
  | entry :: rest, templates, out =>
      match processEntry cwd unmarshal entry with
      | (lines, Loaded.skipped) => scan cwd unmarshal rest templates (out ++ lines)
      | (lines, Loaded.emitted template) =>
          scan cwd unmarshal rest (templates ++ [template])
            (out ++ lines ++ ["Loaded template: " ++ entry.name ++ "\n"])
      | (lines, Loaded.crashed) => ScanResult.crashed (out ++ lines)

/-! ## Lines 127-166: the batched upload -/

def apiURL : String := "https://api.acepanel.net/template/import"

def batchSize : Nat := 10

/-- One HTTP POST: the URL, the headers set and the body. -/
structure Request where
  url : String
  headers : List (String × String)
  body : String

/-- What `Post` returns: an error, or a response with its status code and body. -/
inductive HttpResult where
  | transportError (err : String)
  | response (status : Nat) (body : String)

/-- Everything outside the program that a run depends on. -/
structure World where
  /-- The value of `os.Getenv("API_KEY")`, empty when unset. -/
  apiKey : String
  getwd : Except String String
  readDir : Except String (List DirEntry)
  /-- See `processEntry`. -/
  unmarshal : Bytes → Except String (Option GoMap)
  /-- Go's `json.Marshal(batch)`. -/
  marshal : List GoMap → Except String String
  /-- The answer to the POST issued after `n` earlier ones. -/
  post : Nat → Request → HttpResult

/-- Reads `resp.IsSuccess()`: a status code from 200 to 299. -/
def isSuccess (status : Nat) : Bool := decide (199 < status) && decide (status < 300)

/-- One iteration of the upload loop: its batch number, its batch, what it
printed and the POST it issued, if it issued one. -/
structure Iteration where
  batchNum : Nat
  batch : List GoMap
  lines : List String
  request : Option Request

/-- Lines 148-152: the request of one batch. -/
def mkRequest (apiKey jsonData : String) : Request :=
  { url := apiURL
    headers := [("Content-Type", "application/json"), ("X-API-KEY", apiKey)]
    body := jsonData }

/-- Line 146. -/
def sendingLine (batchNum totalBatches size : Nat) : String :=
  "\nSending batch " ++ toString batchNum ++ "/" ++ toString totalBatches ++ " (" ++
    toString size ++ " templates)...\n"

/-- Lines 154-163: the line printed for the answer to a POST. -/
def resultLine (batchNum : Nat) : HttpResult → String
  | HttpResult.transportError err =>
      "Error sending batch " ++ toString batchNum ++ ": " ++ err ++ "\n"
  | HttpResult.response status body =>
      if isSuccess status then
        "Batch " ++ toString batchNum ++ " sent successfully (status: " ++ toString status ++ ")\n"
      else
        "Batch " ++ toString batchNum ++ " failed (status: " ++ toString status ++ "): " ++
          body ++ "\n"

/-- Lines 132-163: the body of the upload loop at index `i`, after `sent` POSTs. -/
def uploadBatch (w : World) (templates : List GoMap) (totalBatches i sent : Nat) : Iteration :=
  let hi := if i + batchSize > templates.length then templates.length else i + batchSize
  let batch := (templates.take hi).drop i
  let batchNum := i / batchSize + 1
  match w.marshal batch with
  | Except.error err =>
      { batchNum := batchNum, batch := batch, request := none
        lines := ["Error marshaling batch " ++ toString batchNum ++ ": " ++ err ++ "\n"] }
  | Except.ok jsonData =>
      let req := mkRequest w.apiKey jsonData
      { batchNum := batchNum, batch := batch, request := some req
        lines := [sendingLine batchNum totalBatches batch.length,
                  resultLine batchNum (w.post sent req)] }

/-- Lines 131-164: `for i := 0; i < len(templates); i += batchSize`, from index
`i`.  The first argument bounds the number of iterations; `none` when the bound
is reached while `i < len(templates)` still holds. -/
def uploadLoop (w : World) (templates : List GoMap) (totalBatches : Nat) :
    Nat → Nat → Nat → Option (List Iteration)
  | 0, i, _ => if i < templates.length then none else some []
  | fuel + 1, i, sent =>
      if i < templates.length then
        let it := uploadBatch w templates totalBatches i sent
        (uploadLoop w templates totalBatches fuel (i + batchSize)
          (if it.request.isSome then sent + 1 else sent)).map (fun its => it :: its)
      else some []

/-- The iterations of the upload loop of a run, `len(templates)` bounding their number. -/
def upload (w : World) (templates : List GoMap) : Option (List Iteration) :=
  uploadLoop w templates ((templates.length + batchSize - 1) / batchSize) templates.length 0 0

/-! ## `main` -/

/-- What a run shows: the strings printed, the POSTs issued, the exit code. -/
structure Run where
  stdout : List String
  posts : List Request
  exitCode : Nat

/-- Lines 120-166, from the aggregate and the output of the scan. -/
def finish (w : World) (templates : List GoMap) (out : List String) : Option Run :=
  let out := out ++ ["\nTotal templates loaded: " ++ toString templates.length ++ "\n"]
  if templates.length = 0 then
    some { stdout := out ++ ["No templates found\n"], posts := [], exitCode := 0 }
  else
    (upload w templates).map fun its =>
      { stdout := out ++ (its.map Iteration.lines).flatten ++ ["\nImport completed!\n"]
        posts := its.filterMap Iteration.request
        exitCode := 0 }

/-- The function `main`; `none` only if the bound of `upload` were reached. -/
def main (w : World) : Option Run :=
  if w.apiKey = "" then
    some { stdout := ["Error: API_KEY environment variable is not set\n"], posts := [],
           exitCode := 1 }
  else
    match w.getwd with
    | Except.error err =>
        some { stdout := ["Error getting current directory: " ++ err ++ "\n"], posts := [],
               exitCode := 1 }
    | Except.ok cwd =>
        match w.readDir with
        | Except.error err =>
            some { stdout := ["Error reading directory: " ++ err ++ "\n"], posts := [],
                   exitCode := 1 }
        | Except.ok entries =>
            match scan cwd w.unmarshal entries [] [] with
            | ScanResult.crashed out => some { stdout := out, posts := [], exitCode := 2 }
            | ScanResult.done templates out => finish w templates out

/-! ## Notions the statements use -/

/-- Whether a value is a `map[string]any`. -/
def isMapping : Value → Bool
  | Value.map _ => true
  | _ => false

/-- The item of one entry of `envMap`: `envItem` of its name and value when the
value is a `map[string]any`, none otherwise. -/
def envEntryItem (nv : String × Value) : Option GoMap :=
  match nv.2 with
  | Value.map envValue => some (envItem nv.1 envValue)
  | _ => none

/-- The data URI lines 93-114 build for an entry, when they build one. -/
def iconOf (entry : DirEntry) : Option String :=
  if statOk entry.svg then
    match entry.svg with
    | File.content logoData =>
        some ("data:" ++ "image/svg+xml" ++ ";base64," ++ encodeToString logoData)
    | _ => none
  else if statOk entry.png then
    match entry.png with
    | File.content logoData =>
        some ("data:" ++ "image/png" ++ ";base64," ++ encodeToString logoData)
    | _ => none
  else none

/-- The record of lines 65-91, before the logo is looked at. -/
def baseRecord (name : String) (template : GoMap) (composeData : String) : GoMap :=
  mapSet (convertEnvironments (mapSet template "slug" (Value.str name))) "compose"
    (Value.str composeData)

/-- The `k`-th group of `batchSize` consecutive templates, counted from 0. -/
def batchAt (templates : List GoMap) (k : Nat) : List GoMap :=
  (templates.drop (batchSize * k)).take batchSize

/-- The record an entry contributes to the aggregate, if it contributes one. -/
def recordOf (cwd : String) (unmarshal : Bytes → Except String (Option GoMap))
    (entry : DirEntry) : Option GoMap :=
  match (processEntry cwd unmarshal entry).2 with
  | Loaded.emitted template => some template
  | _ => none

/-! ## Sample inputs -/

/-- The bytes of an ASCII text. -/
def bytesOf (s : String) : Bytes := s.toList.map Char.toNat

/-- The decoded form of `demoYaml`. -/
def demoDoc : GoMap :=
  [("name", Value.str "Demo"), ("slug", Value.str "other"), ("icon", Value.str "custom"),
   ("environments", Value.map
      [("FOO", Value.map [("name", Value.str "bar"), ("type", Value.str "text")]),
       ("PORT", Value.int 8080)])]

def demoYaml : String :=
  "name: Demo\nslug: other\nicon: custom\nenvironments:\n  FOO:\n    name: bar\n" ++
  "    type: text\n  PORT: 8080\n"

/-- The decoded form of `dbYaml`. -/
def dbDoc : GoMap :=
  [("name", Value.str "Database"),
   ("environments", Value.map
      [("DB_HOST", Value.map [("description", Value.str "Host"),
                              ("default", Value.str "localhost")]),
       ("DB_PORT", Value.map [("type", Value.str "number"), ("default", Value.int 3306)])])]

def dbYaml : String :=
  "name: Database\nenvironments:\n  DB_HOST:\n    description: Host\n" ++
  "    default: localhost\n  DB_PORT:\n    type: number\n    default: 3306\n"

/-- The decoded form of `fooYaml`. -/
def fooDoc : GoMap :=
  [("environments", Value.map
      [("FOO", Value.map [("name", Value.str "bar"), ("type", Value.str "text")])])]

def fooYaml : String := "environments:\n  FOO:\n    name: bar\n    type: text\n"

/-- A decoder for the sample documents: the empty document stores no map, the
text `[` is a syntax error. -/
def sampleUnmarshal (data : Bytes) : Except String (Option GoMap) :=
  if data = [] then Except.ok none
  else if data = bytesOf demoYaml then Except.ok (some demoDoc)
  else if data = bytesOf dbYaml then Except.ok (some dbDoc)
  else if data = bytesOf fooYaml then Except.ok (some fooDoc)
  else Except.error "yaml: did not find expected node content"

/-- A template directory with a compose file and the given metadata and logos. -/
def sampleDir (name yaml : String) (svg png : File Bytes) : DirEntry :=
  { name := name, isDir := true, data := File.content (bytesOf yaml),
    compose := File.content "services:\n  app:\n    image: nginx\n", svg := svg, png := png }

/-- The entries of `environments` in `dbDoc`. -/
def dbEntries : List (String × GoMap) :=
  [("DB_HOST", [("description", Value.str "Host"), ("default", Value.str "localhost")]),
   ("DB_PORT", [("type", Value.str "number"), ("default", Value.int 3306)])]

/-- The bytes of the text `<svg/>`. -/
def svgBytes : Bytes := [60, 115, 118, 103, 47, 62]

/-- The first bytes of a PNG file. -/
def pngBytes : Bytes := [137, 80, 78, 71]

/-- The records `t0`, `t1`, ... of an aggregate of `n` templates. -/
def sampleTemplates (n : Nat) : List GoMap :=
  (List.range n).map fun i => [("slug", Value.str ("t" ++ toString i))]

/-- The slug of a sample record. -/
def slugText (template : GoMap) : String :=
  match mapGet template "slug" with
  | some (Value.str s) => s
  | _ => ""

/-- An encoder for the sample records: the list of their slugs. -/
def sampleMarshal (batch : List GoMap) : String :=
  "[" ++ ",".intercalate (batch.map slugText) ++ "]"

/-- A run whose first POST is answered with status 500 and the later ones with
status 200; the directory listing, in the order of the names as `os.ReadDir`
returns it, holds the usable directories `alpha` and `demo` and, between them,
`blank`, whose `data.yml` is empty. -/
def sampleWorld : World :=
  { apiKey := "secret"
    getwd := Except.ok "/srv/templates"
    readDir := Except.ok
      [sampleDir "alpha" dbYaml File.missing File.missing,
       sampleDir "blank" "" File.missing File.missing,
       sampleDir "demo" demoYaml File.missing File.missing]
    unmarshal := sampleUnmarshal
    marshal := fun batch => Except.ok (sampleMarshal batch)
    post := fun n _ =>
      if n = 0 then HttpResult.response 500 "server error" else HttpResult.response 200 "ok" }

/-- A run with the API key set in which no entry gives a record: a plain file,
a directory without `data.yml`, one whose `data.yml` has a syntax error and one
without `docker-compose.yml`. -/
def emptyWorld : World :=
  { sampleWorld with
    readDir := Except.ok
      [{ sampleDir "README.md" "" File.missing File.missing with isDir := false },
       { sampleDir "assets" "" File.missing File.missing with data := File.missing },
       sampleDir "broken" "[" File.missing File.missing,
       { sampleDir "db" dbYaml File.missing File.missing with compose := File.missing }] }

/-! ## Maps -/

theorem mapGet_mapSet_self (m : GoMap) (k : String) (v : Value) :
    mapGet (mapSet m k v) k = some v := by
  induction m with
  | nil => simp [mapSet, mapGet]
  | cons kv rest ih =>
      obtain ⟨k', v'⟩ := kv
      by_cases h : k' = k
      · simp [mapSet, mapGet, h]
      · simp [mapSet, mapGet, h, ih]

theorem mapGet_mapSet_ne (m : GoMap) (k k' : String) (v : Value) (hne : k' ≠ k) :
    mapGet (mapSet m k v) k' = mapGet m k' := by
  induction m with
  | nil => simp [mapSet, mapGet, Ne.symm hne]
  | cons kv rest ih =>
      obtain ⟨k0, v0⟩ := kv
      by_cases h : k0 = k
      · subst h
        simp [mapSet, mapGet, Ne.symm hne]
      · by_cases h2 : k0 = k'
        · subst h2
          simp [mapSet, mapGet, h]
        · simp [mapSet, mapGet, h, h2, ih]

/-- Assigning the entries of `attrs` leaves a key that is not one of theirs as it was. -/
theorem mapGet_foldl_of_not_mem (attrs init : GoMap) (k : String) (h : k ∉ mapKeys attrs) :
    mapGet (attrs.foldl (fun item kv => mapSet item kv.1 kv.2) init) k = mapGet init k := by
  induction attrs generalizing init with
  | nil => rfl
  | cons kv rest ih =>
      simp [mapKeys] at h
      rw [List.foldl_cons, ih _ (by simpa [mapKeys] using h.2)]
      exact mapGet_mapSet_ne _ _ _ _ h.1

/-- Assigning the entries of `attrs`, whose keys are distinct, gives each key its value. -/
theorem mapGet_foldl_of_mem (attrs init : GoMap) (k : String) (v : Value)
    (hnd : (mapKeys attrs).Nodup) (h : (k, v) ∈ attrs) :
    mapGet (attrs.foldl (fun item kv => mapSet item kv.1 kv.2) init) k = some v := by
  induction attrs generalizing init with
  | nil => simp at h
  | cons kv rest ih =>
      simp only [mapKeys, List.map_cons, List.nodup_cons] at hnd
      rw [List.foldl_cons]
      rcases List.mem_cons.1 h with e | hmem
      · subst e
        rw [mapGet_foldl_of_not_mem _ _ _ hnd.1]
        exact mapGet_mapSet_self _ _ _
      · exact ih _ hnd.2 hmem

/-! ## The environments array -/

theorem envArray_foldl (envMap : GoMap) (acc : List GoMap) :
    envMap.foldl
      (fun arr nv =>
        match nv.2 with
        | Value.map envValue => arr ++ [envItem nv.1 envValue]
        | _ => arr)
      acc = acc ++ envMap.filterMap envEntryItem := by
  induction envMap generalizing acc with
  | nil => simp
  | cons nv rest ih =>
      obtain ⟨name, value⟩ := nv
      rw [List.foldl_cons, ih]
      cases value <;> simp [envEntryItem, List.filterMap_cons]

/-- The array holds the items of the entries whose value is a map, in the order
the loop visits them. -/
theorem envArray_eq_filterMap (envMap : GoMap) :
    envArray envMap = envMap.filterMap envEntryItem := by
  simpa [envArray] using envArray_foldl envMap []

theorem length_filterMap_envEntryItem (envMap : GoMap) :
    (envMap.filterMap envEntryItem).length
      = (envMap.filter (fun nv => isMapping nv.2)).length := by
  induction envMap with
  | nil => rfl
  | cons nv rest ih =>
      obtain ⟨name, value⟩ := nv
      cases value <;> simp [envEntryItem, isMapping, List.filterMap_cons, List.filter_cons] <;>
        simpa using ih

theorem mapGet_convertEnvironments_ne (template : GoMap) (k : String)
    (hk : k ≠ "environments") :
    mapGet (convertEnvironments template) k = mapGet template k := by
  unfold convertEnvironments
  split
  · exact mapGet_mapSet_ne _ _ _ _ hk
  · rfl

theorem mapGet_convertEnvironments_map (template envMap : GoMap)
    (h : mapGet template "environments" = some (Value.map envMap)) :
    mapGet (convertEnvironments template) "environments"
      = some (Value.seq ((envArray envMap).map Value.map)) := by
  unfold convertEnvironments
  rw [h]
  exact mapGet_mapSet_self _ _ _

theorem convertEnvironments_of_not_map (template : GoMap)
    (h : ∀ envMap, mapGet template "environments" ≠ some (Value.map envMap)) :
    convertEnvironments template = template := by
  unfold convertEnvironments
  split
  · next envMap heq => exact absurd heq (h envMap)
  · rfl

/-! ## One directory entry -/

theorem loadTemplate_snd (cwd : String) (entry : DirEntry) (template : GoMap) :
    (loadTemplate cwd entry template).2 =
      match entry.compose with
      | File.content composeData =>
          Loaded.emitted
            (match iconOf entry with
             | some uri => mapSet (baseRecord entry.name template composeData) "icon"
                 (Value.str uri)
             | none => baseRecord entry.name template composeData)
      | _ => Loaded.skipped := by
  unfold loadTemplate chooseLogo iconOf baseRecord
  cases hc : entry.compose <;> cases hs : entry.svg <;> cases hp : entry.png <;>
    simp [readFile, statOk]

theorem processEntry_of_parsed (cwd : String)
    (unmarshal : Bytes → Except String (Option GoMap)) (entry : DirEntry)
    (data : Bytes) (template : GoMap)
    (hd : entry.data = File.content data) (hp : unmarshal data = Except.ok (some template)) :
    processEntry cwd unmarshal entry =
      if entry.isDir then loadTemplate cwd entry template else ([], Loaded.skipped) := by
  unfold processEntry
  cases entry.isDir <;> simp [hd, hp, statNotExist, readFile]

/-- An emitted record comes from a directory whose `data.yml` was read and
decoded to a map and whose `docker-compose.yml` was read. -/
theorem emitted_inv (cwd : String) (unmarshal : Bytes → Except String (Option GoMap))
    (entry : DirEntry) (r : GoMap)
    (h : (processEntry cwd unmarshal entry).2 = Loaded.emitted r) :
    ∃ data template composeData,
      entry.isDir = true ∧ entry.data = File.content data ∧
      unmarshal data = Except.ok (some template) ∧
      entry.compose = File.content composeData ∧
      r = (match iconOf entry with
           | some uri => mapSet (baseRecord entry.name template composeData) "icon"
               (Value.str uri)
           | none => baseRecord entry.name template composeData) := by
  unfold processEntry at h
  cases hdir : entry.isDir
  · simp [hdir] at h
  · cases hdat : entry.data with
    | missing => simp [hdir, hdat, statNotExist] at h
    | noAccess err => simp [hdir, hdat, statNotExist, readFile] at h
    | unreadable err => simp [hdir, hdat, statNotExist, readFile] at h
    | content data =>
        simp only [hdir, hdat, statNotExist, readFile] at h
        cases hu : unmarshal data with
        | error err => simp [hu] at h
        | ok res =>
            cases res with
            | none => simp [hu] at h
            | some template =>
                simp only [hu] at h
                have h2 : (loadTemplate cwd entry template).2 = Loaded.emitted r := by
                  simpa using h
                rw [loadTemplate_snd] at h2
                cases hc : entry.compose with
                | content composeData =>
                    rw [hc] at h2
                    simp only [Loaded.emitted.injEq] at h2
                    exact ⟨data, template, composeData, rfl, rfl, hu, rfl, h2.symm⟩
                | missing => rw [hc] at h2; simp at h2
                | noAccess err => rw [hc] at h2; simp at h2
                | unreadable err => rw [hc] at h2; simp at h2

/-! ## The fields of an emitted record -/

theorem mapGet_baseRecord_ne (name : String) (template : GoMap) (composeData k : String)
    (h1 : k ≠ "slug") (h2 : k ≠ "environments") (h3 : k ≠ "compose") :
    mapGet (baseRecord name template composeData) k = mapGet template k := by
  unfold baseRecord
  rw [mapGet_mapSet_ne _ _ _ _ h3, mapGet_convertEnvironments_ne _ _ h2,
    mapGet_mapSet_ne _ _ _ _ h1]

theorem mapGet_baseRecord_slug (name : String) (template : GoMap) (composeData : String) :
    mapGet (baseRecord name template composeData) "slug" = some (Value.str name) := by
  unfold baseRecord
  rw [mapGet_mapSet_ne _ _ _ _ (by decide), mapGet_convertEnvironments_ne _ _ (by decide),
    mapGet_mapSet_self]

theorem mapGet_baseRecord_environments (name : String) (template : GoMap)
    (composeData : String) :
    mapGet (baseRecord name template composeData) "environments"
      = mapGet (convertEnvironments template) "environments" := by
  unfold baseRecord
  rw [mapGet_mapSet_ne _ _ _ _ (by decide)]
  unfold convertEnvironments
  rw [mapGet_mapSet_ne _ _ _ _ (by decide)]
  split
  · rw [mapGet_mapSet_self, mapGet_mapSet_self]
  · rw [mapGet_mapSet_ne _ _ _ _ (by decide)]

/-- A key other than `icon` has in the emitted record the value of the record of
lines 65-91. -/
theorem mapGet_withIcon_ne (base : GoMap) (icon : Option String) (k : String)
    (hk : k ≠ "icon") :
    mapGet (match icon with
            | some uri => mapSet base "icon" (Value.str uri)
            | none => base) k = mapGet base k := by
  cases icon with
  | none => rfl
  | some uri => exact mapGet_mapSet_ne _ _ _ _ hk

/-- C3: every emitted record has under `slug` the name of its directory,
whatever the metadata held under that key. -/
theorem slug_equals_directory_name (cwd : String)
    (unmarshal : Bytes → Except String (Option GoMap)) (entry : DirEntry) (r : GoMap)
    (hr : (processEntry cwd unmarshal entry).2 = Loaded.emitted r) :
    mapGet r "slug" = some (Value.str entry.name) := by
  obtain ⟨data, template, composeData, -, -, -, -, rfl⟩ := emitted_inv _ _ _ _ hr
  rw [mapGet_withIcon_ne _ _ _ (by decide)]
  exact mapGet_baseRecord_slug _ _ _

/-- The metadata of directory `wordpress` defines `slug: other`; the record
emitted has `slug` equal to `wordpress`. -/
theorem slug_equals_directory_name_witness :
    mapGet demoDoc "slug" = some (Value.str "other") ∧
    ∃ r, (processEntry "/srv/templates" sampleUnmarshal
            (sampleDir "wordpress" demoYaml File.missing File.missing)).2 = Loaded.emitted r ∧
      mapGet r "slug" = some (Value.str "wordpress") :=
  ⟨rfl, _, rfl, slug_equals_directory_name "/srv/templates" sampleUnmarshal
    (sampleDir "wordpress" demoYaml File.missing File.missing) _ rfl⟩

theorem mapGet_emitted_environments (cwd : String)
    (unmarshal : Bytes → Except String (Option GoMap)) (entry : DirEntry)
    (data : Bytes) (template r : GoMap)
    (hd : entry.data = File.content data) (hp : unmarshal data = Except.ok (some template))
    (hr : (processEntry cwd unmarshal entry).2 = Loaded.emitted r) :
    mapGet r "environments" = mapGet (convertEnvironments template) "environments" := by
  obtain ⟨data', template', composeData, -, hd', hp', -, rfl⟩ := emitted_inv _ _ _ _ hr
  rw [hd] at hd'
  cases hd'
  rw [hp] at hp'
  cases hp'
  rw [mapGet_withIcon_ne _ _ _ (by decide)]
  exact mapGet_baseRecord_environments _ _ _

/-- C10: when the metadata's `environments` is a map, the emitted record's
`environments` is the array of the items of the entries whose value is a map, one
each, with nothing for the other entries; otherwise the field is as the metadata
has it, absent when absent. -/
theorem environments_keeps_mapping_entries (cwd : String)
    (unmarshal : Bytes → Except String (Option GoMap)) (entry : DirEntry)
    (data : Bytes) (template r : GoMap)
    (hd : entry.data = File.content data) (hp : unmarshal data = Except.ok (some template))
    (hr : (processEntry cwd unmarshal entry).2 = Loaded.emitted r) :
    (∀ envMap, mapGet template "environments" = some (Value.map envMap) →
      mapGet r "environments"
        = some (Value.seq ((envMap.filterMap envEntryItem).map Value.map)) ∧
      (envMap.filterMap envEntryItem).length
        = (envMap.filter (fun nv => isMapping nv.2)).length) ∧
    ((∀ envMap, mapGet template "environments" ≠ some (Value.map envMap)) →
      mapGet r "environments" = mapGet template "environments") := by
  have key := mapGet_emitted_environments cwd unmarshal entry data template r hd hp hr
  refine ⟨fun envMap henv => ⟨?_, length_filterMap_envEntryItem envMap⟩, fun hnot => ?_⟩
  · rw [key, mapGet_convertEnvironments_map _ _ henv, envArray_eq_filterMap]
  · rw [key, convertEnvironments_of_not_map _ hnot]

/-- The metadata of `demoYaml` has the entries `FOO` (a map) and `PORT` (a
number): the array has the one item of `FOO`. -/
theorem environments_keeps_mapping_entries_witness :
    ∃ r, (processEntry "/srv/templates" sampleUnmarshal
            (sampleDir "demo" demoYaml File.missing File.missing)).2 = Loaded.emitted r ∧
      mapGet r "environments"
        = some (Value.seq [Value.map [("name", Value.str "bar"), ("type", Value.str "text")]]) :=
  ⟨_, rfl,
    ((environments_keeps_mapping_entries "/srv/templates" sampleUnmarshal
      (sampleDir "demo" demoYaml File.missing File.missing) (bytesOf demoYaml) demoDoc _
      rfl rfl rfl).1
      [("FOO", Value.map [("name", Value.str "bar"), ("type", Value.str "text")]),
       ("PORT", Value.int 8080)] rfl).1⟩

/-! ## The items of the environments array -/

theorem filterMap_envEntryItem_maps (entries : List (String × GoMap)) :
    (entries.map fun e => (e.1, Value.map e.2)).filterMap envEntryItem
      = entries.map fun e => envItem e.1 e.2 := by
  induction entries with
  | nil => rfl
  | cons e rest ih => simp [envEntryItem, List.filterMap_cons, ih]

/-- The item of an entry carries every attribute, has no key besides `name` and
the attributes', and has the entry's name under `name` unless an attribute is
called `name`. -/
theorem envItem_spec (key : String) (attrs : GoMap) (hnd : (mapKeys attrs).Nodup) :
    (∀ k v, (k, v) ∈ attrs → mapGet (envItem key attrs) k = some v) ∧
    (∀ k, mapGet (envItem key attrs) k ≠ none → k = "name" ∨ k ∈ mapKeys attrs) ∧
    ("name" ∉ mapKeys attrs → mapGet (envItem key attrs) "name" = some (Value.str key)) := by
  refine ⟨fun k v hkv => mapGet_foldl_of_mem _ _ _ _ hnd hkv, fun k hk => ?_, fun hn => ?_⟩
  · by_cases hmem : k ∈ mapKeys attrs
    · exact Or.inr hmem
    · left
      unfold envItem at hk
      rw [mapGet_foldl_of_not_mem _ _ _ hmem] at hk
      by_contra hne
      exact hk (by simp [mapGet, Ne.symm hne])
  · unfold envItem
    rw [mapGet_foldl_of_not_mem _ _ _ hn]
    simp [mapGet]

/-- C4, amended: when the metadata's `environments` maps names to attribute
maps, the emitted `environments` is an array with one item per entry, at the
entry's place in the order of the loop; the item carries every attribute of the
entry with its value, has no key besides `name` and the attributes', and has the
entry's name under `name` whenever no attribute is itself called `name`.  The
keys of an attribute map are distinct, as those of a Go map are. -/
theorem environments_items_of_mappings (cwd : String)
    (unmarshal : Bytes → Except String (Option GoMap)) (entry : DirEntry)
    (data : Bytes) (template r : GoMap) (entries : List (String × GoMap))
    (hd : entry.data = File.content data) (hp : unmarshal data = Except.ok (some template))
    (hr : (processEntry cwd unmarshal entry).2 = Loaded.emitted r)
    (henv : mapGet template "environments"
      = some (Value.map (entries.map fun e => (e.1, Value.map e.2))))
    (hnd : ∀ e ∈ entries, (mapKeys e.2).Nodup) :
    ∃ items : List GoMap,
      mapGet r "environments" = some (Value.seq (items.map Value.map)) ∧
      items.length = entries.length ∧
      ∀ (i : Nat) (key : String) (attrs : GoMap), entries[i]? = some (key, attrs) →
        ∃ item, items[i]? = some item ∧
          (∀ k v, (k, v) ∈ attrs → mapGet item k = some v) ∧
          (∀ k, mapGet item k ≠ none → k = "name" ∨ k ∈ mapKeys attrs) ∧
          ("name" ∉ mapKeys attrs → mapGet item "name" = some (Value.str key)) := by
  refine ⟨entries.map fun e => envItem e.1 e.2, ?_, by simp, ?_⟩
  · rw [mapGet_emitted_environments cwd unmarshal entry data template r hd hp hr,
      mapGet_convertEnvironments_map _ _ henv, envArray_eq_filterMap,
      filterMap_envEntryItem_maps]
  · intro i key attrs hi
    refine ⟨envItem key attrs, by simp [List.getElem?_map, hi], ?_⟩
    exact envItem_spec key attrs (hnd _ (List.getElem?_mem hi))

/-- The metadata of `dbYaml` has the entries `DB_HOST` and `DB_PORT`, both
maps without an attribute `name`: the array has their two items. -/
theorem environments_items_of_mappings_witness :
    (∀ e ∈ dbEntries, (mapKeys e.2).Nodup) ∧
    ∃ r, (processEntry "/srv/templates" sampleUnmarshal
            (sampleDir "db" dbYaml File.missing File.missing)).2 = Loaded.emitted r ∧
      ∃ items : List GoMap,
        mapGet r "environments" = some (Value.seq (items.map Value.map)) ∧
        items.length = dbEntries.length ∧
        ∀ (i : Nat) (key : String) (attrs : GoMap), dbEntries[i]? = some (key, attrs) →
          ∃ item, items[i]? = some item ∧
            (∀ k v, (k, v) ∈ attrs → mapGet item k = some v) ∧
            (∀ k, mapGet item k ≠ none → k = "name" ∨ k ∈ mapKeys attrs) ∧
            ("name" ∉ mapKeys attrs → mapGet item "name" = some (Value.str key)) :=
  ⟨by decide, _, rfl,
    environments_items_of_mappings "/srv/templates" sampleUnmarshal
      (sampleDir "db" dbYaml File.missing File.missing) (bytesOf dbYaml) dbDoc _ dbEntries
      rfl rfl rfl rfl (by decide)⟩

/-- C4 fails as stated: the entry `FOO` of `fooYaml` has an attribute
`name: bar`, and the one item emitted has `bar`, not `FOO`, under `name`. -/
theorem environments_name_counterexample :
    mapGet fooDoc "environments"
      = some (Value.map
          [("FOO", Value.map [("name", Value.str "bar"), ("type", Value.str "text")])]) ∧
    ∃ (r : GoMap) (items : List GoMap), (processEntry "/srv/templates" sampleUnmarshal
            (sampleDir "foo" fooYaml File.missing File.missing)).2 = Loaded.emitted r ∧
      mapGet r "environments" = some (Value.seq (items.map Value.map)) ∧
      ∀ item ∈ items, mapGet item "name" ≠ some (Value.str "FOO") := by
  refine ⟨rfl, _, [[("name", Value.str "bar"), ("type", Value.str "text")]], rfl, rfl, ?_⟩
  intro item hitem
  simp only [List.mem_singleton] at hitem
  subst hitem
  simp [mapGet]

/-! ## The icon -/

theorem mapGet_emitted_icon (cwd : String)
    (unmarshal : Bytes → Except String (Option GoMap)) (entry : DirEntry)
    (data : Bytes) (template r : GoMap)
    (hd : entry.data = File.content data) (hp : unmarshal data = Except.ok (some template))
    (hr : (processEntry cwd unmarshal entry).2 = Loaded.emitted r) :
    mapGet r "icon" =
      match iconOf entry with
      | some uri => some (Value.str uri)
      | none => mapGet template "icon" := by
  obtain ⟨data', template', composeData, -, hd', hp', -, rfl⟩ := emitted_inv _ _ _ _ hr
  rw [hd] at hd'
  cases hd'
  rw [hp] at hp'
  cases hp'
  cases iconOf entry with
  | some uri => exact mapGet_mapSet_self _ _ _
  | none =>
      exact mapGet_baseRecord_ne _ _ _ _ (by decide) (by decide) (by decide)

/-- C6: an emitted record of a directory whose `logo.svg` is read has the icon
`data:image/svg+xml;base64,` followed by the base64 of the bytes of `logo.svg`,
whatever `logo.png` is; when `logo.svg` is missing and `logo.png` is read, the
icon is `data:image/png;base64,` followed by the base64 of the bytes of
`logo.png`. -/
theorem icon_prefers_svg (cwd : String)
    (unmarshal : Bytes → Except String (Option GoMap)) (entry : DirEntry) (r : GoMap)
    (hr : (processEntry cwd unmarshal entry).2 = Loaded.emitted r) :
    (∀ logoData, entry.svg = File.content logoData →
      mapGet r "icon"
        = some (Value.str ("data:image/svg+xml;base64," ++ encodeToString logoData))) ∧
    (∀ logoData, entry.svg = File.missing → entry.png = File.content logoData →
      mapGet r "icon"
        = some (Value.str ("data:image/png;base64," ++ encodeToString logoData))) := by
  obtain ⟨data, template, composeData, -, hd, hp, -, -⟩ := emitted_inv _ _ _ _ hr
  have key := mapGet_emitted_icon cwd unmarshal entry data template r hd hp hr
  constructor
  · intro logoData hs
    rw [key]
    simp [iconOf, hs, statOk]
  · intro logoData hs hpng
    rw [key]
    simp [iconOf, hs, hpng, statOk]

/-- A directory with both logos has the icon of `logo.svg`; a directory with
`logo.png` alone has the icon of `logo.png`. -/
theorem icon_prefers_svg_witness :
    (∃ r, (processEntry "/srv/templates" sampleUnmarshal
            (sampleDir "db" dbYaml (File.content svgBytes) (File.content pngBytes))).2
          = Loaded.emitted r ∧
      mapGet r "icon" = some (Value.str "data:image/svg+xml;base64,PHN2Zy8+")) ∧
    (∃ r, (processEntry "/srv/templates" sampleUnmarshal
            (sampleDir "db" dbYaml File.missing (File.content pngBytes))).2
          = Loaded.emitted r ∧
      mapGet r "icon" = some (Value.str "data:image/png;base64,iVBORw==")) :=
  ⟨⟨_, rfl, (icon_prefers_svg "/srv/templates" sampleUnmarshal
      (sampleDir "db" dbYaml (File.content svgBytes) (File.content pngBytes)) _ rfl).1
      svgBytes rfl⟩,
   ⟨_, rfl, (icon_prefers_svg "/srv/templates" sampleUnmarshal
      (sampleDir "db" dbYaml File.missing (File.content pngBytes)) _ rfl).2
      pngBytes rfl rfl⟩⟩

/-- C7 fails as stated: the directory has neither logo, its metadata
(`demoYaml`) defines `icon: custom`, and the emitted record has an icon key. -/
theorem icon_from_metadata_counterexample :
    (sampleDir "demo" demoYaml File.missing File.missing).svg = File.missing ∧
    (sampleDir "demo" demoYaml File.missing File.missing).png = File.missing ∧
    ∃ r, (processEntry "/srv/templates" sampleUnmarshal
            (sampleDir "demo" demoYaml File.missing File.missing)).2 = Loaded.emitted r ∧
      mapGet r "icon" = some (Value.str "custom") :=
  ⟨rfl, rfl, _, rfl, rfl⟩

/-- C7, amended: when the directory has neither `logo.svg` nor `logo.png`
(`os.Stat` finds neither, as when both are missing), or the logo chosen exists
and cannot be read (`logo.svg`, or `logo.png` when `os.Stat` does not find
`logo.svg`, whatever its error), an emitted record has under `icon` what the
metadata has there, no key when the metadata has none; and the record is emitted
whenever the compose file is read. -/
theorem icon_without_logo_is_metadata (cwd : String)
    (unmarshal : Bytes → Except String (Option GoMap)) (entry : DirEntry)
    (data : Bytes) (template : GoMap)
    (hd : entry.data = File.content data) (hp : unmarshal data = Except.ok (some template))
    (hlogo : (statOk entry.svg = false ∧ statOk entry.png = false) ∨
      (∃ err, entry.svg = File.unreadable err) ∨
      (statOk entry.svg = false ∧ ∃ err, entry.png = File.unreadable err)) :
    (∀ r, (processEntry cwd unmarshal entry).2 = Loaded.emitted r →
      mapGet r "icon" = mapGet template "icon") ∧
    (entry.isDir = true → ∀ composeData, entry.compose = File.content composeData →
      ∃ r, (processEntry cwd unmarshal entry).2 = Loaded.emitted r) := by
  have hicon : iconOf entry = none := by
    rcases hlogo with ⟨hs, hpng⟩ | ⟨err, hs⟩ | ⟨hs, err, hpng⟩
    · unfold iconOf
      rw [hs, hpng]
      rfl
    · simp [iconOf, hs, statOk]
    · unfold iconOf
      rw [hs]
      simp [hpng, statOk]
  constructor
  · intro r hr
    rw [mapGet_emitted_icon cwd unmarshal entry data template r hd hp hr, hicon]
  · intro hdir composeData hc
    rw [processEntry_of_parsed cwd unmarshal entry data template hd hp, hdir, if_pos rfl,
      loadTemplate_snd, hc]
    exact ⟨_, rfl⟩

/-- A directory without logos and without `icon` in its metadata emits a
record without `icon`; so does one whose `logo.svg` cannot be read, and one
whose `logo.svg` fails `os.Stat` with a permission error while its `logo.png`
exists and cannot be read. -/
theorem icon_without_logo_is_metadata_witness :
    (∃ r, (processEntry "/srv/templates" sampleUnmarshal
            (sampleDir "db" dbYaml File.missing File.missing)).2 = Loaded.emitted r ∧
      mapGet r "icon" = none) ∧
    (∃ r, (processEntry "/srv/templates" sampleUnmarshal
            (sampleDir "db" dbYaml (File.unreadable "read logo.svg: is a directory")
              (File.content pngBytes))).2 = Loaded.emitted r ∧
      mapGet r "icon" = none) ∧
    (∃ r, (processEntry "/srv/templates" sampleUnmarshal
            (sampleDir "db" dbYaml (File.noAccess "stat logo.svg: permission denied")
              (File.unreadable "read logo.png: is a directory"))).2 = Loaded.emitted r ∧
      mapGet r "icon" = none) :=
  ⟨⟨_, rfl, (icon_without_logo_is_metadata "/srv/templates" sampleUnmarshal
      (sampleDir "db" dbYaml File.missing File.missing) (bytesOf dbYaml) dbDoc rfl rfl
      (Or.inl ⟨rfl, rfl⟩)).1 _ rfl⟩,
   ⟨_, rfl, (icon_without_logo_is_metadata "/srv/templates" sampleUnmarshal
      (sampleDir "db" dbYaml (File.unreadable "read logo.svg: is a directory")
        (File.content pngBytes)) (bytesOf dbYaml) dbDoc rfl rfl
      (Or.inr (Or.inl ⟨_, rfl⟩))).1 _ rfl⟩,
   ⟨_, rfl, (icon_without_logo_is_metadata "/srv/templates" sampleUnmarshal
      (sampleDir "db" dbYaml (File.noAccess "stat logo.svg: permission denied")
        (File.unreadable "read logo.png: is a directory")) (bytesOf dbYaml) dbDoc rfl rfl
      (Or.inr (Or.inr ⟨rfl, _, rfl⟩))).1 _ rfl⟩⟩

/-! ## The upload loop -/

/-- The slice `templates[i:end]` of line 137. -/
theorem uploadBatch_batch (w : World) (templates : List GoMap) (totalBatches i sent : Nat) :
    (uploadBatch w templates totalBatches i sent).batch
      = (templates.take (if i + batchSize > templates.length then templates.length
          else i + batchSize)).drop i := by
  simp only [uploadBatch]
  split <;> rfl

theorem uploadBatch_batchNum (w : World) (templates : List GoMap)
    (totalBatches i sent : Nat) :
    (uploadBatch w templates totalBatches i sent).batchNum = i / batchSize + 1 := by
  simp only [uploadBatch]
  split <;> rfl

/-- The POST of an iteration is the one of its batch, when the batch is encoded. -/
theorem uploadBatch_request (w : World) (templates : List GoMap)
    (totalBatches i sent : Nat) :
    (uploadBatch w templates totalBatches i sent).request
      = match w.marshal (uploadBatch w templates totalBatches i sent).batch with
        | Except.ok jsonData => some (mkRequest w.apiKey jsonData)
        | Except.error _ => none := by
  rw [uploadBatch_batch]
  simp only [uploadBatch]
  split <;> next heq => rw [heq]

theorem uploadBatch_lines (w : World) (templates : List GoMap)
    (totalBatches i sent : Nat) (jsonData : String)
    (h : w.marshal (uploadBatch w templates totalBatches i sent).batch
      = Except.ok jsonData) :
    sendingLine (i / batchSize + 1) totalBatches
        (uploadBatch w templates totalBatches i sent).batch.length
      ∈ (uploadBatch w templates totalBatches i sent).lines := by
  rw [uploadBatch_batch] at h ⊢
  simp only [uploadBatch, h]
  exact List.mem_cons_self _ _

theorem slice_eq_take_drop (templates : List GoMap) (i : Nat) :
    (templates.take (if i + batchSize > templates.length then templates.length
        else i + batchSize)).drop i = (templates.drop i).take batchSize := by
  split
  · next h =>
      rw [List.take_length, List.take_of_length_le]
      simp only [List.length_drop]
      omega
  · rw [List.drop_take]
    simp

theorem slice_append_drop (templates : List GoMap) (i : Nat) :
    (templates.take (if i + batchSize > templates.length then templates.length
        else i + batchSize)).drop i ++ templates.drop (i + batchSize)
      = templates.drop i := by
  rw [slice_eq_take_drop, ← List.drop_drop]
  exact List.take_append_drop _ _

/-- The loop ends before its bound and its iterations are the loop body at the
indices `i`, `i + 10`, ... -/
theorem uploadLoop_spec (w : World) (templates : List GoMap) (totalBatches : Nat) :
    ∀ (fuel i sent : Nat), templates.length ≤ i + fuel →
      ∃ its, uploadLoop w templates totalBatches fuel i sent = some its ∧
        (its.map Iteration.batch).flatten = templates.drop i ∧
        its.length = (templates.length - i + 9) / 10 ∧
        ∀ (k : Nat) (it : Iteration), its[k]? = some it →
          ∃ s, it = uploadBatch w templates totalBatches (i + batchSize * k) s := by
  intro fuel
  induction fuel with
  | zero =>
      intro i sent h
      refine ⟨[], ?_, ?_, ?_, ?_⟩
      · simp only [uploadLoop]
        rw [if_neg (by omega)]
      · simp only [List.map_nil, List.flatten_nil]
        exact (List.drop_of_length_le (by omega)).symm
      · simp only [List.length_nil]
        omega
      · intro k it hk
        simp at hk
  | succ fuel ih =>
      intro i sent h
      by_cases hlt : i < templates.length
      · obtain ⟨its, hrun, hcat, hlen, hbody⟩ :=
          ih (i + batchSize)
            (if (uploadBatch w templates totalBatches i sent).request.isSome then sent + 1
              else sent)
            (by simp only [batchSize]; omega)
        refine ⟨uploadBatch w templates totalBatches i sent :: its, ?_, ?_, ?_, ?_⟩
        · simp only [uploadLoop]
          rw [if_pos hlt]
          simp only [hrun, Option.map_some']
        · simp only [List.map_cons, List.flatten_cons, hcat, uploadBatch_batch]
          exact slice_append_drop templates i
        · simp only [List.length_cons, hlen, batchSize]
          omega
        · intro k it hk
          cases k with
          | zero =>
              simp only [List.getElem?_cons_zero, Option.some.injEq] at hk
              exact ⟨sent, by rw [← hk]; simp⟩
          | succ k =>
              simp only [List.getElem?_cons_succ] at hk
              obtain ⟨s, hs⟩ := hbody k it hk
              refine ⟨s, ?_⟩
              rw [hs]
              congr 1
              simp only [batchSize]
              omega
      · refine ⟨[], ?_, ?_, ?_, ?_⟩
        · simp only [uploadLoop]
          rw [if_neg hlt]
        · simp only [List.map_nil, List.flatten_nil]
          exact (List.drop_of_length_le (by omega)).symm
        · simp only [List.length_nil]
          omega
        · intro k it hk
          simp at hk

theorem upload_spec (w : World) (templates : List GoMap) :
    ∃ its, upload w templates = some its ∧
      (its.map Iteration.batch).flatten = templates ∧
      its.length = (templates.length + batchSize - 1) / batchSize ∧
      ∀ (k : Nat) (it : Iteration), its[k]? = some it →
        ∃ s, it = uploadBatch w templates its.length (batchSize * k) s := by
  obtain ⟨its, hrun, hcat, hlen, hbody⟩ :=
    uploadLoop_spec w templates ((templates.length + batchSize - 1) / batchSize)
      templates.length 0 0 (by omega)
  have hlen' : its.length = (templates.length + batchSize - 1) / batchSize := by
    rw [hlen]
    simp only [batchSize]
    omega
  refine ⟨its, hrun, by simpa using hcat, hlen', ?_⟩
  intro k it hk
  obtain ⟨s, hs⟩ := hbody k it hk
  exact ⟨s, by rw [hs, hlen', Nat.zero_add]⟩

/-- C1: the batches of the upload loop, concatenated in the order the loop
makes them, are the aggregate; the `k`-th batch (from 0) is the records at the
positions `10 * k` up to `10 * k + 9` of the aggregate, so a record is in the
batch of its position and in no other. -/
theorem batches_concat_is_aggregate (w : World) (templates : List GoMap) :
    ∃ its, upload w templates = some its ∧
      (its.map Iteration.batch).flatten = templates ∧
      ∀ (k : Nat) (it : Iteration), its[k]? = some it →
        it.batch = (templates.drop (batchSize * k)).take batchSize := by
  obtain ⟨its, hrun, hcat, -, hbody⟩ := upload_spec w templates
  refine ⟨its, hrun, hcat, ?_⟩
  intro k it hk
  obtain ⟨s, rfl⟩ := hbody k it hk
  rw [uploadBatch_batch, slice_eq_take_drop]

/-- C2: for an aggregate of `N ≥ 1` records the loop makes `ceil(N/10)`
batches, the `totalBatches` of line 129; every batch but the last has 10
records, the last has from 1 to 10; the `k`-th batch (from 1) has batch number
`k`, which its `Sending batch` line prints with `totalBatches` and its size. -/
theorem batches_count_and_sizes (w : World) (templates : List GoMap)
    (hN : 1 ≤ templates.length) :
    ∃ its, upload w templates = some its ∧
      its.length = (templates.length + batchSize - 1) / batchSize ∧
      1 ≤ its.length ∧
      templates.length ≤ 10 * its.length ∧ 10 * its.length < templates.length + 10 ∧
      ∀ (k : Nat) (it : Iteration), its[k]? = some it →
        it.batchNum = k + 1 ∧
        (k + 1 < its.length → it.batch.length = 10) ∧
        (k + 1 = its.length → 1 ≤ it.batch.length ∧ it.batch.length ≤ 10) ∧
        ∀ jsonData, w.marshal it.batch = Except.ok jsonData →
          sendingLine (k + 1) its.length it.batch.length ∈ it.lines := by
  obtain ⟨its, hrun, -, hlen, hbody⟩ := upload_spec w templates
  have hlen' : its.length = (templates.length + 9) / 10 := by
    rw [hlen]
    simp only [batchSize]
    rfl
  refine ⟨its, hrun, hlen, by omega, by omega, by omega, ?_⟩
  intro k it hk
  have hklt : k < its.length := (List.getElem?_eq_some.1 hk).1
  obtain ⟨s, rfl⟩ := hbody k it hk
  have hsize : (uploadBatch w templates its.length (batchSize * k) s).batch.length
      = min 10 (templates.length - 10 * k) := by
    rw [uploadBatch_batch, slice_eq_take_drop]
    simp [batchSize]
  have hnum : batchSize * k / batchSize + 1 = k + 1 := by
    simp [batchSize]
  refine ⟨by rw [uploadBatch_batchNum, hnum], ?_, ?_, ?_⟩
  · intro h
    rw [hsize]
    omega
  · intro h
    rw [hsize]
    omega
  · intro jsonData hj
    have := uploadBatch_lines w templates its.length (batchSize * k) s jsonData hj
    rwa [hnum] at this

/-- An aggregate of 23 records is sent as the batches 1, 2 and 3, of 10, 10 and
3 records. -/
theorem batches_count_and_sizes_witness :
    (upload sampleWorld (sampleTemplates 23)).map
        (fun its => its.map fun it => (it.batchNum, it.batch.length))
      = some [(1, 10), (2, 10), (3, 3)] ∧
    ∃ its, upload sampleWorld (sampleTemplates 23) = some its ∧
      its.length = ((sampleTemplates 23).length + batchSize - 1) / batchSize ∧
      1 ≤ its.length ∧
      (sampleTemplates 23).length ≤ 10 * its.length ∧
      10 * its.length < (sampleTemplates 23).length + 10 ∧
      ∀ (k : Nat) (it : Iteration), its[k]? = some it →
        it.batchNum = k + 1 ∧
        (k + 1 < its.length → it.batch.length = 10) ∧
        (k + 1 = its.length → 1 ≤ it.batch.length ∧ it.batch.length ≤ 10) ∧
        ∀ jsonData, sampleWorld.marshal it.batch = Except.ok jsonData →
          sendingLine (k + 1) its.length it.batch.length ∈ it.lines :=
  ⟨by decide, batches_count_and_sizes sampleWorld (sampleTemplates 23) (by decide)⟩

/-! ## The requests of a run -/

theorem requests_of_iterations (w : World) (templates : List GoMap)
    (enc : List GoMap → String)
    (hm : ∀ k, batchSize * k < templates.length →
      w.marshal (batchAt templates k) = Except.ok (enc (batchAt templates k)))
    (its : List Iteration)
    (hlen : its.length = (templates.length + batchSize - 1) / batchSize)
    (hbody : ∀ (k : Nat) (it : Iteration), its[k]? = some it →
      ∃ s, it = uploadBatch w templates its.length (batchSize * k) s) :
    its.filterMap Iteration.request
      = (List.range its.length).map
          (fun k => mkRequest w.apiKey (enc (batchAt templates k))) := by
  have hmap : its.map Iteration.request
      = ((List.range its.length).map
          (fun k => mkRequest w.apiKey (enc (batchAt templates k)))).map some := by
    apply List.ext_getElem?
    intro k
    by_cases hk : k < its.length
    · have h1 : its[k]? = some its[k] := List.getElem?_eq_getElem hk
      obtain ⟨s, hs⟩ := hbody k _ h1
      have hlt : batchSize * k < templates.length := by
        rw [hlen] at hk
        simp only [batchSize] at hk ⊢
        omega
      have hreq : (its[k]).request
          = some (mkRequest w.apiKey (enc (batchAt templates k))) := by
        rw [hs, uploadBatch_request, uploadBatch_batch, slice_eq_take_drop]
        have := hm k hlt
        unfold batchAt at this ⊢
        rw [this]
      simp [List.getElem?_map, h1, List.getElem?_range hk, hreq]
    · have hk' : its.length ≤ k := Nat.le_of_not_lt hk
      simp [List.getElem?_eq_none, hk']
  calc its.filterMap Iteration.request
      = (its.map Iteration.request).filterMap id := by
        rw [List.filterMap_map]
        rfl
    _ = _ := by
        rw [hmap, List.filterMap_map]
        simp

theorem finish_posts (w : World) (templates : List GoMap) (out : List String)
    (enc : List GoMap → String) (hne : templates ≠ [])
    (hm : ∀ k, batchSize * k < templates.length →
      w.marshal (batchAt templates k) = Except.ok (enc (batchAt templates k))) :
    ∃ run, finish w templates out = some run ∧ run.exitCode = 0 ∧
      run.posts = (List.range ((templates.length + batchSize - 1) / batchSize)).map
        (fun k => mkRequest w.apiKey (enc (batchAt templates k))) := by
  obtain ⟨its, hrun, -, hlen, hbody⟩ := upload_spec w templates
  have hpos : ¬ templates.length = 0 := fun h => hne (List.length_eq_zero.1 h)
  refine ⟨_, by simp only [finish, if_neg hpos, hrun, Option.map_some']; rfl, rfl, ?_⟩
  simp only
  rw [requests_of_iterations w templates enc hm its hlen hbody, hlen]

/-- C9: for a non-empty aggregate whose batches are all encoded, the run issues
one POST per batch, in the order of the batches, each with the encoding of its
batch and the API key; the answers to the POSTs (an error, a status outside
200-299, a status inside) do not enter the list, which is the same for any other
answers, and the exit code is 0. -/
theorem failed_batch_does_not_stop_upload (w : World) (templates : List GoMap)
    (out : List String) (enc : List GoMap → String) (hne : templates ≠ [])
    (hm : ∀ k, batchSize * k < templates.length →
      w.marshal (batchAt templates k) = Except.ok (enc (batchAt templates k))) :
    ∃ run, finish w templates out = some run ∧ run.exitCode = 0 ∧
      run.posts = (List.range ((templates.length + batchSize - 1) / batchSize)).map
        (fun k => mkRequest w.apiKey (enc (batchAt templates k))) ∧
      ∀ answers : Nat → Request → HttpResult,
        ∃ run', finish { w with post := answers } templates out = some run' ∧
          run'.exitCode = 0 ∧ run'.posts = run.posts := by
  obtain ⟨run, hrun, hexit, hposts⟩ := finish_posts w templates out enc hne hm
  refine ⟨run, hrun, hexit, hposts, fun answers => ?_⟩
  obtain ⟨run', hrun', hexit', hposts'⟩ :=
    finish_posts { w with post := answers } templates out enc hne hm
  exact ⟨run', hrun', hexit', by rw [hposts', hposts]⟩

/-- The first of the three batches of 23 records is answered with status 500
and body `server error`; the POSTs of the second and third batch follow. -/
theorem failed_batch_does_not_stop_upload_witness :
    sampleWorld.post 0 (mkRequest "secret" (sampleMarshal (batchAt (sampleTemplates 23) 0)))
      = HttpResult.response 500 "server error" ∧
    (finish sampleWorld (sampleTemplates 23) []).map (fun run => run.posts.map Request.body)
      = some ["[t0,t1,t2,t3,t4,t5,t6,t7,t8,t9]", "[t10,t11,t12,t13,t14,t15,t16,t17,t18,t19]",
              "[t20,t21,t22]"] ∧
    ∃ run, finish sampleWorld (sampleTemplates 23) [] = some run ∧ run.exitCode = 0 ∧
      run.posts = (List.range (((sampleTemplates 23).length + batchSize - 1) / batchSize)).map
        (fun k => mkRequest sampleWorld.apiKey (sampleMarshal (batchAt (sampleTemplates 23) k))) ∧
      ∀ answers : Nat → Request → HttpResult,
        ∃ run', finish { sampleWorld with post := answers } (sampleTemplates 23) []
            = some run' ∧
          run'.exitCode = 0 ∧ run'.posts = run.posts :=
  ⟨rfl, by decide,
    failed_batch_does_not_stop_upload sampleWorld (sampleTemplates 23) [] sampleMarshal
      (fun h => absurd (congrArg List.length h) (by decide)) (fun _ _ => rfl)⟩

/-! ## The scan -/

/-- An entry that is no directory, or whose `data.yml` is missing, unreadable or
not decoded, or whose `docker-compose.yml` is not read, gives no record. -/
theorem recordOf_eq_none (cwd : String) (unmarshal : Bytes → Except String (Option GoMap))
    (entry : DirEntry)
    (h : entry.isDir = false ∨ (∀ data, entry.data ≠ File.content data) ∨
      (∃ data err, entry.data = File.content data ∧ unmarshal data = Except.error err) ∨
      (∀ composeData, entry.compose ≠ File.content composeData)) :
    recordOf cwd unmarshal entry = none := by
  unfold recordOf
  split
  · next r hr =>
      obtain ⟨data, template, composeData, hdir, hd, hp, hc, -⟩ := emitted_inv _ _ _ _ hr
      rcases h with h | h | ⟨data', err, hd', hp'⟩ | h
      · rw [hdir] at h
        cases h
      · exact absurd hd (h data)
      · rw [hd] at hd'
        cases hd'
        rw [hp] at hp'
        cases hp'
      · exact absurd hc (h composeData)
  · rfl

/-- An entry stops the run exactly when it is a directory whose `data.yml` is
read and decoded without an error and without a map. -/
theorem processEntry_crashed_iff (cwd : String)
    (unmarshal : Bytes → Except String (Option GoMap)) (entry : DirEntry) :
    (processEntry cwd unmarshal entry).2 = Loaded.crashed ↔
      entry.isDir = true ∧
        ∃ data, entry.data = File.content data ∧ unmarshal data = Except.ok none := by
  constructor
  · intro h
    unfold processEntry at h
    cases hdir : entry.isDir
    · simp [hdir] at h
    · cases hdat : entry.data with
      | missing => simp [hdir, hdat, statNotExist] at h
      | noAccess err => simp [hdir, hdat, statNotExist, readFile] at h
      | unreadable err => simp [hdir, hdat, statNotExist, readFile] at h
      | content data =>
          simp only [hdir, hdat, statNotExist, readFile] at h
          cases hu : unmarshal data with
          | error err => simp [hu] at h
          | ok res =>
              cases res with
              | none => exact ⟨rfl, data, rfl, hu⟩
              | some template =>
                  simp only [hu] at h
                  have h2 : (loadTemplate cwd entry template).2 = Loaded.crashed := by
                    simpa using h
                  rw [loadTemplate_snd] at h2
                  cases hc : entry.compose <;> rw [hc] at h2 <;> simp at h2
  · rintro ⟨hdir, data, hd, hp⟩
    unfold processEntry
    simp [hdir, hd, hp, statNotExist, readFile]

/-- When no entry stops the run, the aggregate of the scan is the records of
the entries that give one, in the order of the listing. -/
theorem scan_eq_filterMap (cwd : String) (unmarshal : Bytes → Except String (Option GoMap))
    (entries : List DirEntry)
    (hok : ∀ e ∈ entries, (processEntry cwd unmarshal e).2 ≠ Loaded.crashed) :
    ∀ (templates : List GoMap) (out : List String),
      ∃ out', scan cwd unmarshal entries templates out
        = ScanResult.done (templates ++ entries.filterMap (recordOf cwd unmarshal)) out' := by
  induction entries with
  | nil =>
      intro templates out
      exact ⟨out, by simp [scan]⟩
  | cons e rest ih =>
      intro templates out
      have hrest := ih (fun e' he' => hok e' (List.mem_cons_of_mem _ he'))
      have he := hok e (List.mem_cons_self _ _)
      rcases hpe : processEntry cwd unmarshal e with ⟨lines, res⟩
      cases res with
      | skipped =>
          obtain ⟨out', hout⟩ := hrest templates (out ++ lines)
          refine ⟨out', ?_⟩
          simp only [scan, hpe, hout, List.filterMap_cons, recordOf]
      | emitted r =>
          obtain ⟨out', hout⟩ := hrest (templates ++ [r])
            (out ++ lines ++ ["Loaded template: " ++ e.name ++ "\n"])
          refine ⟨out', ?_⟩
          simp only [scan, hpe, hout, List.filterMap_cons, recordOf]
          simp
      | crashed =>
          rw [hpe] at he
          exact absurd rfl he

/-- C5, at the failing input: the listing of `sampleWorld` holds the usable
directories `alpha` and `demo` and, between them, `blank`, whose `data.yml` is
empty; the run loads `alpha` and stops at `blank` with exit code 2, without an
aggregate and without `demo`. -/
theorem empty_metadata_stops_the_scan :
    sampleUnmarshal (bytesOf "") = Except.ok none ∧
    main sampleWorld
      = some { stdout := ["Loaded template: alpha\n"], posts := [], exitCode := 2 } :=
  ⟨rfl, rfl⟩

/-! ## The run -/

/-- C8: when the API key is set and the scan ends with an empty aggregate, the
run prints `No templates found` after the count, issues no POST and ends with
exit code 0. -/
theorem no_templates_found (w : World) (cwd : String) (entries : List DirEntry)
    (out : List String) (hkey : w.apiKey ≠ "") (hcwd : w.getwd = Except.ok cwd)
    (hdir : w.readDir = Except.ok entries)
    (hscan : scan cwd w.unmarshal entries [] [] = ScanResult.done [] out) :
    main w = some
      { stdout := out ++ ["\nTotal templates loaded: 0\n", "No templates found\n"]
        posts := []
        exitCode := 0 } := by
  unfold main
  rw [if_neg hkey]
  simp only [hcwd, hdir, hscan, finish, List.length_nil, if_true, List.append_assoc,
    List.singleton_append]
  rfl

/-- No entry of `emptyWorld` gives a record: the run prints the errors of the
scan, the count 0 and `No templates found`, and issues no POST. -/
theorem no_templates_found_witness :
    main emptyWorld = some
      { stdout :=
          ["Error parsing /srv/templates/broken/data.yml: " ++
             "yaml: did not find expected node content\n",
           "Error reading docker-compose.yml for db: " ++
             "open /srv/templates/db/docker-compose.yml: no such file or directory\n"] ++
          ["\nTotal templates loaded: 0\n", "No templates found\n"]
        posts := []
        exitCode := 0 } :=
  no_templates_found emptyWorld "/srv/templates" _ _ (by decide) rfl rfl rfl

end Templates
